import Mathlib

/-!
Shallow embedding of the `le_path` vector-path engine (le_path.cpp).

The C++ code stores 2D single-precision points (glm::vec2); we idealize the
float arithmetic over ℝ.  `glm::distance` is the Euclidean distance,
`std::floor` is `Int.floor`.  C-style asserts and calls that are undefined
behavior on an empty container (e.g. `vector::back()` on an empty vector)
are modelled by `Option`-returning functions where `none` means the
assertion fired / UB was reached.
-/

set_option linter.unusedVariables false

set_option linter.unnecessarySeqFocus false

noncomputable section

/-- A 2D point, mirroring `glm::vec2` (float coordinates idealized as ℝ). -/
@[ext]
structure Vertex where
  x : ℝ
  y : ℝ

instance : Add Vertex := ⟨fun a b => ⟨a.x + b.x, a.y + b.y⟩⟩

instance : Sub Vertex := ⟨fun a b => ⟨a.x - b.x, a.y - b.y⟩⟩

instance : SMul ℝ Vertex := ⟨fun t v => ⟨t * v.x, t * v.y⟩⟩

instance : HDiv Vertex ℝ Vertex := ⟨fun v d => ⟨v.x / d, v.y / d⟩⟩

/-- The zero vertex, used as the junk value read out of an empty vector. -/
def vzero : Vertex := ⟨0, 0⟩

/-- `glm::distance` on 2-vectors: the Euclidean distance. -/
def glmDistance (a b : Vertex) : ℝ :=
  Real.sqrt ((a.x - b.x) ^ 2 + (a.y - b.y) ^ 2)

/-- `PathCommand`: the tagged command variant of le_path.cpp.  (`eUnknown`
is unreachable from the builder API and is omitted.) -/
inductive PathCommand where
  | moveTo (p : Vertex)
  | lineTo (p : Vertex)
  | quadBezierTo (p c1 : Vertex)
  | cubicBezierTo (p c1 c2 : Vertex)
  | closePath

/-- `Polyline`: vertices, parallel cumulative distances, and total length. -/
structure Polyline where
  vertices : List Vertex
  distances : List ℝ
  total_distance : ℝ

/-- `le_path_o`: sub-paths, derived polylines, and the last used sample
interval. -/
structure le_path_o where
  subpaths : List (List PathCommand)
  polylines : List Polyline
  sample_interval : ℝ

/-! ### Tracer (`trace_*`, `le_path_trace_path`) -/

/-- `trace_move_to`: pushes distance 0 and the point. -/
def trace_move_to (pl : Polyline) (p : Vertex) : Polyline :=
  ⟨pl.vertices ++ [p], pl.distances ++ [0], pl.total_distance⟩

/-- `trace_line_to`: accumulates the Euclidean distance from the last vertex. -/
def trace_line_to (pl : Polyline) (p : Vertex) : Polyline :=
  let td := pl.total_distance + glmDistance p (pl.vertices.getLastD vzero)
  ⟨pl.vertices ++ [p], pl.distances ++ [td], td⟩

/-- `trace_close_path`: a direct line to the very first vertex. -/
def trace_close_path (pl : Polyline) : Polyline :=
  trace_line_to pl (pl.vertices.headD vzero)

/-- Bernstein-basis quadratic Bézier point, as computed in the loop body. -/
def quadBezierPoint (p0 c1 p1 : Vertex) (t : ℝ) : Vertex :=
  ((1 - t) * (1 - t)) • p0 + (2 * (1 - t) * t) • c1 + (t * t) • p1

/-- Bernstein-basis cubic Bézier point, as computed in the loop body. -/
def cubicBezierPoint (p0 c1 c2 p1 : Vertex) (t : ℝ) : Vertex :=
  (((1 - t) * (1 - t)) * (1 - t)) • p0 + (3 * ((1 - t) * (1 - t)) * t) • c1 +
    (3 * (1 - t) * (t * t)) • c2 + ((t * t) * t) • p1

/-- One iteration of the curve-tracing loops: append `b`, accumulating the
distance from the previously evaluated point. -/
def traceCurvePoint (pl : Polyline) (p_prev b : Vertex) : Polyline :=
  let td := pl.total_distance + glmDistance b p_prev
  ⟨pl.vertices ++ [b], pl.distances ++ [td], td⟩

/-- The tracing loop over the evaluated-point indices `is`, carrying the
previously evaluated point. -/
def traceCurveSteps (f : ℕ → Vertex) (st : Polyline × Vertex) (is : List ℕ) :
    Polyline × Vertex :=
  is.foldl (fun st i => (traceCurvePoint st.1 st.2 (f i), f i)) st

/-- `trace_quad_bezier_to` (resolution = number of segments). -/
def trace_quad_bezier_to (pl : Polyline) (p1 c1 : Vertex) (resolution : ℕ) :
    Polyline :=
  if resolution = 0 then pl
  else if resolution = 1 then trace_line_to pl p1
  else
    let p0 := pl.vertices.getLastD vzero
    let delta_t := (1 : ℝ) / resolution
    (traceCurveSteps (fun i => quadBezierPoint p0 c1 p1 ((i : ℝ) * delta_t))
      (pl, p0) ((List.range resolution).map (· + 1))).1

/-- `trace_cubic_bezier_to`.  Note the source-faithful asymmetry at
resolution = 1: only the vertex is pushed, with no distance bookkeeping. -/
def trace_cubic_bezier_to (pl : Polyline) (p1 c1 c2 : Vertex)
    (resolution : ℕ) : Polyline :=
  if resolution = 0 then pl
  else if resolution = 1 then { pl with vertices := pl.vertices ++ [p1] }
  else
    let p0 := pl.vertices.getLastD vzero
    let delta_t := (1 : ℝ) / resolution
    (traceCurveSteps (fun i => cubicBezierPoint p0 c1 c2 p1 ((i : ℝ) * delta_t))
      (pl, p0) ((List.range resolution).map (· + 1))).1

/-- The dispatch of `le_path_trace_path`'s inner switch. -/
def traceCommand (resolution : ℕ) (pl : Polyline) : PathCommand → Polyline
  | .moveTo p => trace_move_to pl p
  | .lineTo p => trace_line_to pl p
  | .quadBezierTo p c1 => trace_quad_bezier_to pl p c1 resolution
  | .cubicBezierTo p c1 c2 => trace_cubic_bezier_to pl p c1 c2 resolution
  | .closePath => trace_close_path pl

/-- One sub-path traced to one polyline (curve resolution fixed at 12). -/
def tracePolyline (cmds : List PathCommand) : Polyline :=
  cmds.foldl (traceCommand 12) ⟨[], [], 0⟩

/-- `le_path_trace_path`: rebuild all polylines from the sub-paths. -/
def le_path_trace_path (self : le_path_o) : le_path_o :=
  { self with polylines := self.subpaths.map tracePolyline }

/-! ### Builder (`le_path_*` mutation API) -/

/-- `le_path_create`: a fresh empty path. -/
def le_path_create : le_path_o := ⟨[], [], 0⟩

/-- `le_path_clear`: clears sub-paths and polylines (and nothing else). -/
def le_path_clear (self : le_path_o) : le_path_o :=
  { self with subpaths := [], polylines := [] }

/-- `le_path_get_num_polylines`. -/
def le_path_get_num_polylines (self : le_path_o) : ℕ := self.polylines.length

/-- `le_path_move_to`: starts a new sub-path. -/
def le_path_move_to (self : le_path_o) (p : Vertex) : le_path_o :=
  { self with subpaths := self.subpaths ++ [[PathCommand.moveTo p]] }

/-- Append a command to the last sub-path; `none` when no sub-path exists
(the C++ asserts and then indexes `back()` of an empty vector). -/
def appendToLastSubpath (self : le_path_o) (c : PathCommand) :
    Option le_path_o :=
  match self.subpaths.getLast? with
  | none => none
  | some sp =>
      some { self with subpaths := self.subpaths.dropLast ++ [sp ++ [c]] }

/-- `le_path_line_to`. -/
def le_path_line_to (self : le_path_o) (p : Vertex) : Option le_path_o :=
  appendToLastSubpath self (.lineTo p)

/-- `le_path_quad_bezier_to`. -/
def le_path_quad_bezier_to (self : le_path_o) (p c1 : Vertex) :
    Option le_path_o :=
  appendToLastSubpath self (.quadBezierTo p c1)

/-- `le_path_cubic_bezier_to`. -/
def le_path_cubic_bezier_to (self : le_path_o) (p c1 c2 : Vertex) :
    Option le_path_o :=
  appendToLastSubpath self (.cubicBezierTo p c1 c2)

/-- `le_path_close_path` (no assert in the C++, but `back()` on an empty
sub-path vector is the same UB, hence `none`). -/
def le_path_close_path (self : le_path_o) : Option le_path_o :=
  appendToLastSubpath self .closePath

/-- The endpoint case-switch of `le_path_get_previous_p`:
`some` for commands carrying an endpoint, `none` (a null pointer plus an
fprintf diagnostic) for `ClosePath`. -/
def previousEndpoint : PathCommand → Option Vertex
  | .moveTo p => some p
  | .lineTo p => some p
  | .quadBezierTo p _ => some p
  | .cubicBezierTo p _ _ => some p
  | .closePath => none

/-- `le_path_get_previous_p`.  Outer `none` = the asserts fired (no
sub-path / no previous command); `some none` = the diagnostic branch
returning a null pointer. -/
def le_path_get_previous_p (self : le_path_o) : Option (Option Vertex) :=
  match self.subpaths.getLast? with
  | none => none
  | some sp =>
      match sp.getLast? with
      | none => none
      | some c => some (previousEndpoint c)

/-- `le_path_line_horiz_to`: derives y from the previous endpoint;
no-op (with a diagnostic) when there is none. -/
def le_path_line_horiz_to (self : le_path_o) (px : ℝ) : Option le_path_o :=
  match le_path_get_previous_p self with
  | none => none
  | some none => some self
  | some (some p) => le_path_line_to self ⟨px, p.y⟩

/-- `le_path_line_vert_to`: derives x from the previous endpoint. -/
def le_path_line_vert_to (self : le_path_o) (py : ℝ) : Option le_path_o :=
  match le_path_get_previous_p self with
  | none => none
  | some none => some self
  | some (some p) => le_path_line_to self ⟨p.x, py⟩

/-! ### Resampler (`resample_*`, `le_path_resample`) -/

/-- `resample_move_to`: only pushes the point (no distance bookkeeping). -/
def resample_move_to (pl : Polyline) (p : Vertex) (interval : ℝ)
    (sum_distance : ℝ) : Polyline × ℝ :=
  ({ pl with vertices := pl.vertices ++ [p] }, sum_distance)

/-- `resample_line_to`: places a vertex at every crossed interval boundary
and advances `sum_distance` by `start_distance + n_intervals * interval`.
The early `assert(false); return` on an empty polyline keeps both the
polyline and `sum_distance` unchanged. -/
def resample_line_to (pl : Polyline) (p : Vertex) (interval : ℝ)
    (sum_distance : ℝ) : Polyline × ℝ :=
  if pl.vertices.isEmpty then (pl, sum_distance)
  else
    let start_point := pl.vertices.getLastD vzero
    let distance := glmDistance p start_point
    let direction := (p - start_point) / distance
    let start_distance :=
      sum_distance - ⌊sum_distance / interval⌋ * interval
    let n_intervals : ℤ := ⌊(distance - start_distance) / interval⌋
    let emitted := (List.range n_intervals.toNat).map
      (fun (i : ℕ) =>
        start_point +
          (((i : ℝ) + 1) * interval + start_distance) • direction)
    ({ pl with vertices := pl.vertices ++ emitted },
      sum_distance + (start_distance + n_intervals * interval))

/-- One iteration of the curve-resampling loops: accumulate the distance to
the newly evaluated point `b`, and emit `b` exactly when the running total
crosses a new interval boundary.  State:
(polyline, previous_vertex, num_intervals, last_vertex_distance,
sum_distance).  (`num_intervals` is a `size_t` in the C++; we model it as ℤ,
which agrees whenever the running sums are nonnegative.) -/
def resampleCurveStep (interval : ℝ) (b : Vertex)
    (st : Polyline × Vertex × ℤ × ℝ × ℝ) : Polyline × Vertex × ℤ × ℝ × ℝ :=
  let pl := st.1
  let previous_vertex := st.2.1
  let num_intervals := st.2.2.1
  let last_vertex_distance := st.2.2.2.1
  let sum_distance := st.2.2.2.2
  let lvd := last_vertex_distance + glmDistance previous_vertex b
  let current_interval : ℤ := ⌊lvd / interval⌋
  if num_intervals < current_interval then
    ({ pl with vertices := pl.vertices ++ [b] }, b, current_interval, lvd, lvd)
  else
    (pl, b, num_intervals, lvd, sum_distance)

/-- `resample_quad_bezier_to`. -/
def resample_quad_bezier_to (pl : Polyline) (p1 c1 : Vertex)
    (resolution : ℕ) (interval : ℝ) (sum_distance : ℝ) : Polyline × ℝ :=
  if resolution = 0 then (pl, sum_distance)
  else if resolution = 1 then resample_line_to pl p1 interval sum_distance
  else
    let p0 := pl.vertices.getLastD vzero
    let delta_t := (1 : ℝ) / resolution
    let is : List ℕ := (List.range resolution).map (· + 1)
    let final := is.foldl
      (fun st i =>
        resampleCurveStep interval
          (quadBezierPoint p0 c1 p1 ((i : ℝ) * delta_t)) st)
      (pl, p0, ⌊sum_distance / interval⌋, sum_distance, sum_distance)
    (final.1, final.2.2.2.2)

/-- `resample_cubic_bezier_to`. -/
def resample_cubic_bezier_to (pl : Polyline) (p1 c1 c2 : Vertex)
    (resolution : ℕ) (interval : ℝ) (sum_distance : ℝ) : Polyline × ℝ :=
  if resolution = 0 then (pl, sum_distance)
  else if resolution = 1 then resample_line_to pl p1 interval sum_distance
  else
    let p0 := pl.vertices.getLastD vzero
    let delta_t := (1 : ℝ) / resolution
    let is : List ℕ := (List.range resolution).map (· + 1)
    let final := is.foldl
      (fun st i =>
        resampleCurveStep interval
          (cubicBezierPoint p0 c1 c2 p1 ((i : ℝ) * delta_t)) st)
      (pl, p0, ⌊sum_distance / interval⌋, sum_distance, sum_distance)
    (final.1, final.2.2.2.2)

/-- `resample_close_path`: resample a synthetic line back to the first
vertex, add the residual straight-line distance to `sum_distance`, and
unconditionally duplicate the first vertex. -/
def resample_close_path (pl : Polyline) (interval : ℝ) (sum_distance : ℝ) :
    Polyline × ℝ :=
  let st := resample_line_to pl (pl.vertices.headD vzero) interval sum_distance
  let pl2 := st.1
  let sd2 := st.2 +
    glmDistance (pl2.vertices.headD vzero) (pl2.vertices.getLastD vzero)
  ({ pl2 with vertices := pl2.vertices ++ [pl2.vertices.headD vzero] }, sd2)

/-- The dispatch of `le_path_resample`'s inner switch. -/
def resampleCommand (resolution : ℕ) (interval : ℝ) (st : Polyline × ℝ) :
    PathCommand → Polyline × ℝ
  | .moveTo p => resample_move_to st.1 p interval st.2
  | .lineTo p => resample_line_to st.1 p interval st.2
  | .quadBezierTo p c1 =>
      resample_quad_bezier_to st.1 p c1 resolution interval st.2
  | .cubicBezierTo p c1 c2 =>
      resample_cubic_bezier_to st.1 p c1 c2 resolution interval st.2
  | .closePath => resample_close_path st.1 interval st.2

/-- One sub-path resampled to one polyline (curve resolution fixed at 100,
`sum_distance` starting at 0). -/
def resamplePolyline (interval : ℝ) (cmds : List PathCommand) : Polyline :=
  (cmds.foldl (resampleCommand 100 interval) (⟨[], [], 0⟩, 0)).1

/-- `le_path_resample`: rebuild all polylines by resampling, recording the
interval used. -/
def le_path_resample (self : le_path_o) (interval : ℝ) : le_path_o :=
  { self with
    polylines := self.subpaths.map (resamplePolyline interval),
    sample_interval := interval }

/-! ### Mini-parser (`le_path_add_from_simplified_svg`)

The scanner works on a `List Char` (the C code walks a NUL-terminated
string; the end of the list is the NUL).  `strtof` is a libc call; it is
modelled below for the decimal forms relevant to the recognized grammar
(leading whitespace, optional sign, digits with an optional fraction part;
the exotic strtof forms — exponents, hex floats, inf/nan — are omitted). -/

/-- The whitespace set of `is_whitespace` (0x20, 0x9, 0xD, 0xA). -/
def isWsChar (c : Char) : Bool :=
  c = ' ' || c = '\t' || c = '\r' || c = '\n'

/-- Count of leading whitespace characters. -/
def countWs : List Char → ℕ
  | [] => 0
  | c :: cs => if isWsChar c then countWs cs + 1 else 0

def isDigitChar (c : Char) : Bool := '0' ≤ c && c ≤ '9'

def digitVal (c : Char) : ℕ := c.toNat - '0'.toNat

/-- Accumulate a run of decimal digits left to right:
(accumulated value, count of digit characters). -/
def takeDigits : ℕ → List Char → ℕ × ℕ
  | acc, [] => (acc, 0)
  | acc, c :: cs =>
    if isDigitChar c then
      let r := takeDigits (10 * acc + digitVal c) cs
      (r.1, r.2 + 1)
    else (acc, 0)

/-- Model of libc `strtof` on decimal input: returns (value, characters
consumed); consumed = 0 means no conversion was performed (`num_end == c`
in the caller). -/
def strtofModel (cs : List Char) : ℝ × ℕ :=
  let w := countWs cs
  let cs1 := cs.drop w
  let sgn : ℝ × ℕ :=
    match cs1 with
    | '-' :: _ => (-1, 1)
    | '+' :: _ => (1, 1)
    | _ => (1, 0)
  let cs2 := cs1.drop sgn.2
  let ip := takeDigits 0 cs2
  let cs3 := cs2.drop ip.2
  let fr : ℝ × ℕ × ℕ :=
    match cs3 with
    | '.' :: rest =>
      let fp := takeDigits 0 rest
      ((fp.1 : ℝ) / 10 ^ fp.2, fp.2 + 1, fp.2)
    | _ => (0, 0, 0)
  if ip.2 = 0 && fr.2.2 = 0 then (0, 0)
  else (sgn.1 * ((ip.1 : ℝ) + fr.1), w + sgn.2 + ip.2 + fr.2.1)

/-- `is_float_number`: succeeds when strtof consumed at least one
character, reporting (consumed, value). -/
def is_float_number (cs : List Char) : Option (ℕ × ℝ) :=
  let r := strtofModel cs
  if r.2 = 0 then none else some (r.2, r.1)

/-- `is_character_match`: match one literal character. -/
def is_character_match (needle : Char) (cs : List Char) : Option ℕ :=
  match cs with
  | [] => none
  | c :: _ => if c = needle then some 1 else none

/-- `is_whitespace`: at least one whitespace character. -/
def is_whitespace (cs : List Char) : Option ℕ :=
  let w := countWs cs
  if w = 0 then none else some w

/-- `is_coordinate_pair`: number ',' number. -/
def is_coordinate_pair (cs : List Char) : Option (ℕ × Vertex) :=
  match is_float_number cs with
  | none => none
  | some (k1, x) =>
    match is_character_match ',' (cs.drop k1) with
    | none => none
    | some k2 =>
      match is_float_number (cs.drop (k1 + k2)) with
      | none => none
      | some (k3, y) => some (k1 + k2 + k3, ⟨x, y⟩)

/-- `is_m_instruction`: 'M' whitespace coordinate-pair. -/
def is_m_instruction (cs : List Char) : Option (ℕ × Vertex) :=
  match is_character_match 'M' cs with
  | none => none
  | some k1 =>
    match is_whitespace (cs.drop k1) with
    | none => none
    | some k2 =>
      match is_coordinate_pair (cs.drop (k1 + k2)) with
      | none => none
      | some (k3, p0) => some (k1 + k2 + k3, p0)

/-- `is_l_instruction`: 'L' whitespace coordinate-pair. -/
def is_l_instruction (cs : List Char) : Option (ℕ × Vertex) :=
  match is_character_match 'L' cs with
  | none => none
  | some k1 =>
    match is_whitespace (cs.drop k1) with
    | none => none
    | some k2 =>
      match is_coordinate_pair (cs.drop (k1 + k2)) with
      | none => none
      | some (k3, p0) => some (k1 + k2 + k3, p0)

/-- `is_h_instruction`: 'H' whitespace number. -/
def is_h_instruction (cs : List Char) : Option (ℕ × ℝ) :=
  match is_character_match 'H' cs with
  | none => none
  | some k1 =>
    match is_whitespace (cs.drop k1) with
    | none => none
    | some k2 =>
      match is_float_number (cs.drop (k1 + k2)) with
      | none => none
      | some (k3, px) => some (k1 + k2 + k3, px)

/-- `is_v_instruction`: 'V' whitespace number. -/
def is_v_instruction (cs : List Char) : Option (ℕ × ℝ) :=
  match is_character_match 'V' cs with
  | none => none
  | some k1 =>
    match is_whitespace (cs.drop k1) with
    | none => none
    | some k2 =>
      match is_float_number (cs.drop (k1 + k2)) with
      | none => none
      | some (k3, py) => some (k1 + k2 + k3, py)

/-- `is_c_instruction`: 'C' (whitespace coordinate-pair) × 3. -/
def is_c_instruction (cs : List Char) : Option (ℕ × Vertex × Vertex × Vertex) :=
  match is_character_match 'C' cs with
  | none => none
  | some k1 =>
    match is_whitespace (cs.drop k1) with
    | none => none
    | some k2 =>
      match is_coordinate_pair (cs.drop (k1 + k2)) with
      | none => none
      | some (k3, p0) =>
        match is_whitespace (cs.drop (k1 + k2 + k3)) with
        | none => none
        | some k4 =>
          match is_coordinate_pair (cs.drop (k1 + k2 + k3 + k4)) with
          | none => none
          | some (k5, p1) =>
            match is_whitespace (cs.drop (k1 + k2 + k3 + k4 + k5)) with
            | none => none
            | some k6 =>
              match is_coordinate_pair (cs.drop (k1 + k2 + k3 + k4 + k5 + k6)) with
              | none => none
              | some (k7, p2) =>
                some (k1 + k2 + k3 + k4 + k5 + k6 + k7, p0, p1, p2)

/-- `is_q_instruction`: 'Q' (whitespace coordinate-pair) × 2. -/
def is_q_instruction (cs : List Char) : Option (ℕ × Vertex × Vertex) :=
  match is_character_match 'Q' cs with
  | none => none
  | some k1 =>
    match is_whitespace (cs.drop k1) with
    | none => none
    | some k2 =>
      match is_coordinate_pair (cs.drop (k1 + k2)) with
      | none => none
      | some (k3, p0) =>
        match is_whitespace (cs.drop (k1 + k2 + k3)) with
        | none => none
        | some k4 =>
          match is_coordinate_pair (cs.drop (k1 + k2 + k3 + k4)) with
          | none => none
          | some (k5, p1) => some (k1 + k2 + k3 + k4 + k5, p0, p1)

/-- One iteration of the scanner's for-loop at the current position: tries
the matchers in the source's priority order and performs the corresponding
builder call.  Outer `none` = no matcher succeeded (the loop then skips one
character); inner `none` = the builder call hit a precondition violation
(assert / UB in the C++). -/
def svg_step (self : le_path_o) (cs : List Char) :
    Option (Option le_path_o × ℕ) :=
  match is_m_instruction cs with
  | some (k, p0) => some (some (le_path_move_to self p0), k)
  | none =>
  match is_l_instruction cs with
  | some (k, p0) => some (le_path_line_to self p0, k)
  | none =>
  match is_h_instruction cs with
  | some (k, px) => some (le_path_line_horiz_to self px, k)
  | none =>
  match is_v_instruction cs with
  | some (k, py) => some (le_path_line_vert_to self py, k)
  | none =>
  match is_c_instruction cs with
  | some (k, p0, p1, p2) => some (le_path_cubic_bezier_to self p2 p0 p1, k)
  | none =>
  match is_q_instruction cs with
  | some (k, p0, p1) => some (le_path_quad_bezier_to self p1 p0, k)
  | none =>
  match is_character_match 'Z' cs with
  | some k => some (le_path_close_path self, k)
  | none => none

/-- The scanner loop, fuelled (every successful matcher consumes at least
one character, so `fuel = length` suffices; `none` on exhausted fuel models
a stuck loop, which no real input reaches). -/
def svg_loop : ℕ → List Char → le_path_o → Option le_path_o
  | _, [], self => some self
  | 0, _ :: _, _ => none
  | fuel + 1, c :: rest, self =>
    match svg_step self (c :: rest) with
    | none => svg_loop fuel rest self
    | some (none, _) => none
    | some (some self2, k) => svg_loop fuel ((c :: rest).drop k) self2

/-- `le_path_add_from_simplified_svg`. -/
def le_path_add_from_simplified_svg (self : le_path_o) (svg : List Char) :
    Option le_path_o :=
  svg_loop svg.length svg self

/-! ### Specification-side definitions used by the theorems -/

/-- Sum of the Euclidean lengths of the consecutive segments of the chain
`prev, q₁, q₂, …`. -/
def pathLen (prev : Vertex) : List Vertex → ℝ
  | [] => 0
  | q :: qs => glmDistance q prev + pathLen q qs

/-- The cumulative-distance entries pushed by a run of `trace_line_to`
calls starting from running total `t` and pen position `prev`. -/
def cumDists (t : ℝ) (prev : Vertex) : List Vertex → List ℝ
  | [] => []
  | q :: qs =>
      (t + glmDistance q prev) :: cumDists (t + glmDistance q prev) q qs

/-- A sub-path in the sense of the builder and of the glossary: a maximal
run of commands starting at a MoveTo (so MoveTo occurs exactly once, at the
front — `le_path_move_to` always opens a fresh sub-path). -/
def IsSubPath (sp : List PathCommand) : Prop :=
  ∃ p rest, sp = PathCommand.moveTo p :: rest ∧
    ∀ c ∈ rest, ∀ q, c ≠ PathCommand.moveTo q

/-- The tracer's per-polyline invariant, threaded through the command
fold: parallel arrays, first distance 0, non-decreasing distances whose
last entry is the running total. -/
def PolyInv (pl : Polyline) : Prop :=
  pl.distances.length = pl.vertices.length ∧
  pl.distances.head? = some 0 ∧
  pl.distances.Chain' (· ≤ ·) ∧
  pl.distances.getLastD 0 = pl.total_distance

/-- `start_distance` as computed by `resample_line_to`:
`sum_distance − floor(sum_distance / interval) · interval`, i.e.
`sum_distance mod interval`. -/
def startDistance (interval sum_distance : ℝ) : ℝ :=
  sum_distance - ⌊sum_distance / interval⌋ * interval

/-- `n_intervals` as computed by `resample_line_to`:
`floor((distance − start_distance) / interval)`. -/
def nIntervals (interval d s : ℝ) : ℤ := ⌊(d - s) / interval⌋

/-- The point at arc distance `t` from `a` along the (unit, when
`glmDistance b a ≠ 0`) direction from `a` toward `b` — "the point at
distance t along the segment from the previous vertex toward p". -/
def pointToward (a b : Vertex) (t : ℝ) : Vertex :=
  a + t • ((b - a) / glmDistance b a)

/-! ### Basic lemmas about vertices and distances -/

@[simp] theorem Vertex.add_x (a b : Vertex) : (a + b).x = a.x + b.x := rfl

@[simp] theorem Vertex.add_y (a b : Vertex) : (a + b).y = a.y + b.y := rfl

@[simp] theorem Vertex.sub_x (a b : Vertex) : (a - b).x = a.x - b.x := rfl

@[simp] theorem Vertex.sub_y (a b : Vertex) : (a - b).y = a.y - b.y := rfl

@[simp] theorem Vertex.smul_x (t : ℝ) (v : Vertex) : (t • v).x = t * v.x := rfl

@[simp] theorem Vertex.smul_y (t : ℝ) (v : Vertex) : (t • v).y = t * v.y := rfl

@[simp] theorem Vertex.div_x (v : Vertex) (d : ℝ) : (v / d).x = v.x / d := rfl

@[simp] theorem Vertex.div_y (v : Vertex) (d : ℝ) : (v / d).y = v.y / d := rfl

theorem glmDistance_nonneg (a b : Vertex) : 0 ≤ glmDistance a b :=
  Real.sqrt_nonneg _

/-- Helper for evaluating `Real.sqrt` on perfect squares. -/
theorem sqrt_eval {a b : ℝ} (hb : 0 ≤ b) (h : b ^ 2 = a) : Real.sqrt a = b := by
  rw [← h]
  exact Real.sqrt_sq hb

@[simp] theorem glmDistance_self (a : Vertex) : glmDistance a a = 0 := by
  unfold glmDistance
  simp

/-! ### Tracer lemmas -/

/-- Folding `trace_line_to` over a list of target points appends the
points, the matching cumulative distances, and the total length. -/
theorem foldl_trace_line_to (ps : List Vertex) : ∀ pl : Polyline,
    ps.foldl trace_line_to pl =
      ⟨pl.vertices ++ ps,
        pl.distances ++ cumDists pl.total_distance (pl.vertices.getLastD vzero) ps,
        pl.total_distance + pathLen (pl.vertices.getLastD vzero) ps⟩ := by
  induction ps with
  | nil =>
    intro pl
    simp [cumDists, pathLen]
  | cons q qs ih =>
    intro pl
    rw [List.foldl_cons, ih]
    simp [trace_line_to, cumDists, pathLen, List.getLastD_concat,
      List.append_assoc, add_assoc]

/-- `traceCommand` on a list of LineTo commands is `trace_line_to`. -/
theorem foldl_traceCommand_lineTo (ps : List Vertex) (pl : Polyline) :
    (ps.map PathCommand.lineTo).foldl (traceCommand 12) pl =
      ps.foldl trace_line_to pl := by
  rw [List.foldl_map]
  rfl

/-- Last cumulative distance of a nonempty `trace_line_to` run. -/
theorem cumDists_getLastD (ps : List Vertex) : ∀ (t d₀ : ℝ) (prev : Vertex),
    ps ≠ [] → (cumDists t prev ps).getLastD d₀ = t + pathLen prev ps := by
  induction ps with
  | nil => simp
  | cons q qs ih =>
    intro t d₀ prev _
    by_cases hq : qs = []
    · subst hq
      simp [cumDists, pathLen]
    · rw [cumDists, List.getLastD_cons, ih _ _ _ hq, pathLen]
      ring

/-! ### C3 — tracing MoveTo/LineTo sub-paths -/

/-- C3: for a sub-path built of a MoveTo followed by LineTo commands, the
traced polyline has exactly one vertex per command, the first vertex's
cumulative distance is 0, and the cumulative distance stored at the last
vertex is the sum of the Euclidean lengths of the consecutive segments. -/
theorem trace_moveTo_lineTos (p0 : Vertex) (ps : List Vertex) :
    (tracePolyline (PathCommand.moveTo p0 :: ps.map PathCommand.lineTo)).vertices.length
        = (PathCommand.moveTo p0 :: ps.map PathCommand.lineTo).length ∧
    (tracePolyline (PathCommand.moveTo p0 :: ps.map PathCommand.lineTo)).distances.head?
        = some 0 ∧
    (tracePolyline (PathCommand.moveTo p0 :: ps.map PathCommand.lineTo)).distances.getLastD 0
        = pathLen p0 ps := by
  have h : tracePolyline (PathCommand.moveTo p0 :: ps.map PathCommand.lineTo)
      = ⟨p0 :: ps, 0 :: cumDists 0 p0 ps, 0 + pathLen p0 ps⟩ := by
    unfold tracePolyline
    rw [List.foldl_cons]
    have h0 : traceCommand 12 ⟨[], [], 0⟩ (PathCommand.moveTo p0)
        = ⟨[p0], [0], 0⟩ := rfl
    rw [h0, foldl_traceCommand_lineTo, foldl_trace_line_to]
    simp
  rw [h]
  refine ⟨by simp, rfl, ?_⟩
  by_cases hps : ps = []
  · subst hps
    simp [cumDists, pathLen]
  · rw [List.getLastD_cons, cumDists_getLastD ps 0 0 p0 hps]
    ring

/-- Vertices produced by the curve-tracing loop: the old vertices followed
by one evaluated point per index. -/
theorem traceCurveSteps_vertices (f : ℕ → Vertex) (is : List ℕ) :
    ∀ st : Polyline × Vertex,
      (traceCurveSteps f st is).1.vertices = st.1.vertices ++ is.map f := by
  induction is with
  | nil =>
    intro st
    simp [traceCurveSteps]
  | cons i is ih =>
    intro st
    have hstep : traceCurveSteps f st (i :: is)
        = traceCurveSteps f (traceCurvePoint st.1 st.2 (f i), f i) is := rfl
    rw [hstep, ih]
    simp [traceCurvePoint]

/-- The index list `1..(k+1)` mapped through `g`, split at its last
element. -/
theorem rangeSucc_map_concat (k : ℕ) (g : ℕ → Vertex) :
    ((List.range (k + 1)).map (· + 1)).map g
      = ((List.range k).map (· + 1)).map g ++ [g (k + 1)] := by
  rw [List.range_succ]
  simp

theorem quadBezierPoint_one (p0 c1 p1 : Vertex) :
    quadBezierPoint p0 c1 p1 1 = p1 := by
  unfold quadBezierPoint
  ext <;> simp

theorem cubicBezierPoint_one (p0 c1 c2 p1 : Vertex) :
    cubicBezierPoint p0 c1 c2 p1 1 = p1 := by
  unfold cubicBezierPoint
  ext <;> simp

/-- Length and last vertex of a curve-tracing loop over indices
`1..(k+1)`. -/
theorem traceCurveSteps_length_getLast (pl : Polyline) (p_prev : Vertex)
    (f : ℕ → Vertex) (k : ℕ) :
    (traceCurveSteps f (pl, p_prev) ((List.range (k + 1)).map (· + 1))).1.vertices.length
        = pl.vertices.length + (k + 1) ∧
    (traceCurveSteps f (pl, p_prev) ((List.range (k + 1)).map (· + 1))).1.vertices.getLast?
        = some (f (k + 1)) := by
  constructor
  · rw [traceCurveSteps_vertices]
    simp
  · rw [traceCurveSteps_vertices, rangeSucc_map_concat, ← List.append_assoc,
      List.getLast?_concat]

/-! ### C4 — fixed-resolution curve tracing emits exactly R vertices -/

/-- C4: for `R > 1` and a non-empty polyline, `trace_quad_bezier_to` and
`trace_cubic_bezier_to` append exactly `R` new vertices (the Bernstein
curve evaluated at `t = i/R`, `i = 1..R`, never re-emitting the `t = 0`
start point), and the last appended vertex is exactly the command's
endpoint (the float tolerance of the claim vanishes over ℝ). -/
theorem trace_bezier_R_vertices (pl : Polyline) (p1 c1 c2 : Vertex) (R : ℕ)
    (hR : 1 < R) (hne : pl.vertices ≠ []) :
    ((trace_quad_bezier_to pl p1 c1 R).vertices.length = pl.vertices.length + R ∧
      (trace_quad_bezier_to pl p1 c1 R).vertices.getLast? = some p1) ∧
    ((trace_cubic_bezier_to pl p1 c1 c2 R).vertices.length = pl.vertices.length + R ∧
      (trace_cubic_bezier_to pl p1 c1 c2 R).vertices.getLast? = some p1) := by
  have hR0 : R ≠ 0 := by omega
  have hR1 : R ≠ 1 := by omega
  have hcast : ((R : ℕ) : ℝ) ≠ 0 := Nat.cast_ne_zero.mpr hR0
  have ht : ((R : ℕ) : ℝ) * ((1 : ℝ) / ((R : ℕ) : ℝ)) = 1 :=
    mul_one_div_cancel hcast
  obtain ⟨k, rfl⟩ : ∃ k, R = k + 1 := ⟨R - 1, by omega⟩
  constructor
  · rw [trace_quad_bezier_to, if_neg hR0, if_neg hR1]
    refine ⟨(traceCurveSteps_length_getLast _ _ _ _).1, ?_⟩
    rw [(traceCurveSteps_length_getLast _ _ _ _).2]
    rw [show (((k + 1 : ℕ) : ℝ)) * ((1 : ℝ) / ((k + 1 : ℕ) : ℝ)) = 1 from ht]
    rw [quadBezierPoint_one]
  · rw [trace_cubic_bezier_to, if_neg hR0, if_neg hR1]
    refine ⟨(traceCurveSteps_length_getLast _ _ _ _).1, ?_⟩
    rw [(traceCurveSteps_length_getLast _ _ _ _).2]
    rw [show (((k + 1 : ℕ) : ℝ)) * ((1 : ℝ) / ((k + 1 : ℕ) : ℝ)) = 1 from ht]
    rw [cubicBezierPoint_one]

/-- Witness for C4: a concrete quadratic and cubic at `R = 2` on the
one-vertex polyline `[(0,0)]`. -/
theorem trace_bezier_R_vertices_witness :
    (1 : ℕ) < 2 ∧ (Polyline.mk [vzero] [0] 0).vertices ≠ [] ∧
    (((trace_quad_bezier_to (Polyline.mk [vzero] [0] 0) ⟨2, 0⟩ ⟨1, 1⟩ 2).vertices.length
          = (Polyline.mk [vzero] [0] 0).vertices.length + 2 ∧
        (trace_quad_bezier_to (Polyline.mk [vzero] [0] 0) ⟨2, 0⟩ ⟨1, 1⟩ 2).vertices.getLast?
          = some ⟨2, 0⟩) ∧
      ((trace_cubic_bezier_to (Polyline.mk [vzero] [0] 0) ⟨2, 0⟩ ⟨1, 1⟩ ⟨1, -1⟩ 2).vertices.length
          = (Polyline.mk [vzero] [0] 0).vertices.length + 2 ∧
        (trace_cubic_bezier_to (Polyline.mk [vzero] [0] 0) ⟨2, 0⟩ ⟨1, 1⟩ ⟨1, -1⟩ 2).vertices.getLast?
          = some ⟨2, 0⟩)) :=
  ⟨by norm_num, by simp,
    trace_bezier_R_vertices (Polyline.mk [vzero] [0] 0) ⟨2, 0⟩ ⟨1, 1⟩ ⟨1, -1⟩ 2
      (by norm_num) (by simp)⟩

/-! ### C5 — tracer output invariants -/

/-- Appending one vertex with distance entry `total + d` preserves the
tracer invariant. -/
theorem polyInv_push (pl : Polyline) (q prev : Vertex) (h : PolyInv pl) :
    PolyInv ⟨pl.vertices ++ [q],
      pl.distances ++ [pl.total_distance + glmDistance q prev],
      pl.total_distance + glmDistance q prev⟩ := by
  obtain ⟨hlen, hhead, hchain, hlast⟩ := h
  refine ⟨by simp [hlen], ?_, ?_, by simp [List.getLastD_concat]⟩
  · simp [hhead]
  · rw [List.chain'_append]
    refine ⟨hchain, List.chain'_singleton _, ?_⟩
    intro a ha b hb
    simp only [List.head?_cons, Option.mem_def, Option.some.injEq] at hb
    cases hd : pl.distances.getLast? with
    | none =>
      rw [hd] at ha
      simp at ha
    | some a2 =>
      rw [hd] at ha
      simp only [Option.mem_def, Option.some.injEq] at ha
      have ha2 : a2 = pl.total_distance := by
        rw [List.getLastD_eq_getLast?, hd] at hlast
        simpa using hlast
      rw [← hb, ← ha, ha2]
      have := glmDistance_nonneg q prev
      linarith

theorem polyInv_trace_move_to_start (p : Vertex) :
    PolyInv (trace_move_to ⟨[], [], 0⟩ p) := by
  refine ⟨rfl, rfl, ?_, rfl⟩
  exact List.chain'_singleton _

theorem polyInv_trace_line_to (pl : Polyline) (q : Vertex) (h : PolyInv pl) :
    PolyInv (trace_line_to pl q) :=
  polyInv_push pl q (pl.vertices.getLastD vzero) h

theorem polyInv_traceCurvePoint (pl : Polyline) (p_prev b : Vertex)
    (h : PolyInv pl) : PolyInv (traceCurvePoint pl p_prev b) :=
  polyInv_push pl b p_prev h

theorem polyInv_traceCurveSteps (f : ℕ → Vertex) (is : List ℕ) :
    ∀ st : Polyline × Vertex, PolyInv st.1 →
      PolyInv (traceCurveSteps f st is).1 := by
  induction is with
  | nil =>
    intro st h
    exact h
  | cons i is ih =>
    intro st h
    have hstep : traceCurveSteps f st (i :: is)
        = traceCurveSteps f (traceCurvePoint st.1 st.2 (f i), f i) is := rfl
    rw [hstep]
    exact ih _ (polyInv_traceCurvePoint _ _ _ h)

/-- At the tracer's fixed resolution 12, every non-MoveTo command preserves
the invariant. -/
theorem polyInv_traceCommand (pl : Polyline) (c : PathCommand) (h : PolyInv pl)
    (hc : ∀ q, c ≠ PathCommand.moveTo q) : PolyInv (traceCommand 12 pl c) := by
  cases c with
  | moveTo p => exact absurd rfl (hc p)
  | lineTo p => exact polyInv_trace_line_to pl p h
  | quadBezierTo p c1 =>
    rw [traceCommand, trace_quad_bezier_to, if_neg (by norm_num), if_neg (by norm_num)]
    exact polyInv_traceCurveSteps _ _ _ h
  | cubicBezierTo p c1 c2 =>
    rw [traceCommand, trace_cubic_bezier_to, if_neg (by norm_num), if_neg (by norm_num)]
    exact polyInv_traceCurveSteps _ _ _ h
  | closePath => exact polyInv_trace_line_to pl _ h

theorem polyInv_fold (cmds : List PathCommand) :
    ∀ pl : Polyline, PolyInv pl →
      (∀ c ∈ cmds, ∀ q, c ≠ PathCommand.moveTo q) →
      PolyInv (cmds.foldl (traceCommand 12) pl) := by
  induction cmds with
  | nil =>
    intro pl h _
    exact h
  | cons c cmds ih =>
    intro pl h hc
    rw [List.foldl_cons]
    exact ih _ (polyInv_traceCommand pl c h (hc c (by simp)))
      (fun d hd => hc d (by simp [hd]))

/-- C5: for a path whose sub-paths are builder sub-paths (a MoveTo opening
each, per the glossary a sub-path is a maximal run starting at a MoveTo),
every traced polyline has as many distance entries as vertices, starts at
cumulative distance 0, and its cumulative distances are monotonically
non-decreasing. -/
theorem tracePath_invariants (self : le_path_o)
    (h : ∀ sp ∈ self.subpaths, IsSubPath sp) :
    ∀ pl ∈ (le_path_trace_path self).polylines,
      pl.distances.length = pl.vertices.length ∧
      pl.distances.head? = some 0 ∧
      pl.distances.Pairwise (· ≤ ·) := by
  intro pl hpl
  rw [le_path_trace_path] at hpl
  simp only [List.mem_map] at hpl
  obtain ⟨sp, hsp, rfl⟩ := hpl
  obtain ⟨p, rest, rfl, hrest⟩ := h sp hsp
  have hinv : PolyInv (tracePolyline (PathCommand.moveTo p :: rest)) := by
    unfold tracePolyline
    rw [List.foldl_cons]
    exact polyInv_fold rest _ (polyInv_trace_move_to_start p) hrest
  obtain ⟨h1, h2, h3, _⟩ := hinv
  exact ⟨h1, h2, List.chain'_iff_pairwise.mp h3⟩

/-- Witness for C5 at the concrete path `[[MoveTo (0,0), LineTo (3,4)]]`. -/
theorem tracePath_invariants_witness :
    (∀ sp ∈ (le_path_o.mk [[PathCommand.moveTo vzero, PathCommand.lineTo ⟨3, 4⟩]] [] 0).subpaths,
        IsSubPath sp) ∧
    (∀ pl ∈ (le_path_trace_path
        (le_path_o.mk [[PathCommand.moveTo vzero, PathCommand.lineTo ⟨3, 4⟩]] [] 0)).polylines,
      pl.distances.length = pl.vertices.length ∧
      pl.distances.head? = some 0 ∧
      pl.distances.Pairwise (· ≤ ·)) := by
  have hsub : ∀ sp ∈ (le_path_o.mk
      [[PathCommand.moveTo vzero, PathCommand.lineTo ⟨3, 4⟩]] [] 0).subpaths,
      IsSubPath sp := by
    intro sp hsp
    simp only [List.mem_singleton] at hsp
    exact ⟨vzero, [PathCommand.lineTo ⟨3, 4⟩], hsp, by simp⟩
  exact ⟨hsub, tracePath_invariants _ hsub⟩

/-! ### C9 — `clear` empties the lists but keeps `sample_interval` -/

/-- C9: for every path state, `le_path_clear` leaves the sub-path list and
the polyline list empty (so `le_path_get_num_polylines` returns 0
afterwards) but does not modify the `sample_interval` field, which keeps
its previous value. -/
theorem clear_empties_lists_keeps_interval (self : le_path_o) :
    (le_path_clear self).subpaths = [] ∧
    (le_path_clear self).polylines = [] ∧
    le_path_get_num_polylines (le_path_clear self) = 0 ∧
    (le_path_clear self).sample_interval = self.sample_interval := by
  refine ⟨rfl, rfl, rfl, rfl⟩

/-! ### C7 — horizontal/vertical line after ClosePath is a diagnosed no-op -/

/-- C7: when the last sub-path is non-empty and its most recent command is
`ClosePath` (which carries no endpoint), `le_path_get_previous_p` takes the
diagnostic branch (`some none` = warning printed, null returned), and both
`le_path_line_horiz_to` and `le_path_line_vert_to` are no-ops that leave
the command model unchanged and let construction continue (`some self`,
not a failure). -/
theorem horiz_vert_after_close_noop (self : le_path_o) (sp : List PathCommand)
    (hsp : self.subpaths.getLast? = some sp) (hne : sp ≠ [])
    (hlast : sp.getLast? = some PathCommand.closePath) (px py : ℝ) :
    le_path_get_previous_p self = some none ∧
    le_path_line_horiz_to self px = some self ∧
    le_path_line_vert_to self py = some self := by
  have h1 : le_path_get_previous_p self = some none := by
    simp [le_path_get_previous_p, hsp, hlast, previousEndpoint]
  refine ⟨h1, ?_, ?_⟩
  · unfold le_path_line_horiz_to
    rw [h1]
  · unfold le_path_line_vert_to
    rw [h1]

/-- Witness for C7 at a concrete path `[[MoveTo (0,0), ClosePath]]`. -/
theorem horiz_vert_after_close_noop_witness :
    (le_path_o.mk [[PathCommand.moveTo vzero, PathCommand.closePath]] [] 0).subpaths.getLast?
        = some [PathCommand.moveTo vzero, PathCommand.closePath] ∧
    ([PathCommand.moveTo vzero, PathCommand.closePath] : List PathCommand) ≠ [] ∧
    ([PathCommand.moveTo vzero, PathCommand.closePath]).getLast? = some PathCommand.closePath ∧
    (le_path_get_previous_p (le_path_o.mk [[PathCommand.moveTo vzero, PathCommand.closePath]] [] 0) = some none ∧
      le_path_line_horiz_to (le_path_o.mk [[PathCommand.moveTo vzero, PathCommand.closePath]] [] 0) 5
        = some (le_path_o.mk [[PathCommand.moveTo vzero, PathCommand.closePath]] [] 0) ∧
      le_path_line_vert_to (le_path_o.mk [[PathCommand.moveTo vzero, PathCommand.closePath]] [] 0) 7
        = some (le_path_o.mk [[PathCommand.moveTo vzero, PathCommand.closePath]] [] 0)) :=
  ⟨rfl, by simp, rfl,
    horiz_vert_after_close_noop
      (le_path_o.mk [[PathCommand.moveTo vzero, PathCommand.closePath]] [] 0)
      [PathCommand.moveTo vzero, PathCommand.closePath] rfl (by simp) rfl 5 7⟩

/-! ### C8 — horizontal_line_to on a fresh empty path -/

/-- Counterexample to C8: on a freshly created path (no sub-path at all),
`le_path_line_horiz_to` does not perform the claimed documented no-op; it
runs into `assert(!self->subpaths.empty())` / `back()` on an empty vector
(modelled as `none`), so the call does not return the unchanged path. -/
theorem horiz_on_empty_counterexample :
    le_path_line_horiz_to le_path_create 5 = none ∧
    le_path_line_horiz_to le_path_create 5 ≠ some le_path_create :=
  ⟨rfl, by simp [le_path_line_horiz_to, le_path_get_previous_p, le_path_create]⟩

/-- C8 (amended): calling `horizontal_line_to` as the very first operation
on a freshly created path violates the function's checked precondition
(`assert(!subpaths.empty())`, followed by UB in a release build); it is a
precondition violation, not a documented safe no-op with a diagnostic. -/
theorem horiz_on_empty_asserts :
    le_path_line_horiz_to le_path_create 5 = none ∧
    le_path_line_vert_to le_path_create 5 = none :=
  ⟨rfl, rfl⟩

/-! ### Resampler lemmas -/

/-- Closed form of `Int.floor` from explicit bounds. -/
theorem floor_eval {a : ℝ} {z : ℤ} (h1 : (z : ℝ) ≤ a) (h2 : a < z + 1) :
    ⌊a⌋ = z :=
  Int.floor_eq_iff.mpr ⟨h1, h2⟩

/-- Characterization of `resample_line_to` on a non-empty polyline,
written with the code's own quantities. -/
theorem resample_line_to_eq (pl : Polyline) (p : Vertex)
    (interval sum_distance : ℝ) (hne : pl.vertices ≠ []) :
    resample_line_to pl p interval sum_distance =
      (Polyline.mk
        (pl.vertices ++
          (List.range ((nIntervals interval
              (glmDistance p (pl.vertices.getLastD vzero))
              (startDistance interval sum_distance)).toNat)).map
            (fun (i : ℕ) => pl.vertices.getLastD vzero +
              (((i : ℝ) + 1) * interval + startDistance interval sum_distance) •
                ((p - pl.vertices.getLastD vzero) /
                  glmDistance p (pl.vertices.getLastD vzero))))
        pl.distances pl.total_distance,
        sum_distance + (startDistance interval sum_distance +
          (nIntervals interval (glmDistance p (pl.vertices.getLastD vzero))
            (startDistance interval sum_distance)) * interval)) := by
  rw [resample_line_to, if_neg (by simpa using hne)]
  rfl

theorem startDistance_eq_fract (interval sum_distance : ℝ)
    (hI : interval ≠ 0) :
    startDistance interval sum_distance
      = interval * Int.fract (sum_distance / interval) := by
  unfold startDistance Int.fract
  field_simp
  ring

theorem startDistance_nonneg (interval sum_distance : ℝ) (hI : 0 < interval) :
    0 ≤ startDistance interval sum_distance := by
  rw [startDistance_eq_fract _ _ (ne_of_gt hI)]
  exact mul_nonneg (le_of_lt hI) (Int.fract_nonneg _)

theorem startDistance_lt (interval sum_distance : ℝ) (hI : 0 < interval) :
    startDistance interval sum_distance < interval := by
  rw [startDistance_eq_fract _ _ (ne_of_gt hI)]
  calc interval * Int.fract (sum_distance / interval)
      < interval * 1 :=
        mul_lt_mul_of_pos_left (Int.fract_lt_one _) hI
    _ = interval := mul_one _

@[simp] theorem pointToward_zero (a b : Vertex) : pointToward a b 0 = a := by
  unfold pointToward
  ext <;> simp

/-- Points along the same unit direction are separated by the difference
of their arc parameters. -/
theorem glmDistance_pointToward (a b : Vertex) (t₁ t₂ : ℝ)
    (hd : glmDistance b a ≠ 0) :
    glmDistance (pointToward a b t₁) (pointToward a b t₂) = |t₁ - t₂| := by
  have hX : 0 ≤ (b.x - a.x) ^ 2 + (b.y - a.y) ^ 2 := by positivity
  have hd2 : glmDistance b a ^ 2 = (b.x - a.x) ^ 2 + (b.y - a.y) ^ 2 :=
    Real.sq_sqrt hX
  have hkey : (pointToward a b t₁).x - (pointToward a b t₂).x
        = (t₁ - t₂) * ((b.x - a.x) / glmDistance b a) ∧
      (pointToward a b t₁).y - (pointToward a b t₂).y
        = (t₁ - t₂) * ((b.y - a.y) / glmDistance b a) := by
    unfold pointToward
    constructor <;> simp <;> ring
  rw [show glmDistance (pointToward a b t₁) (pointToward a b t₂)
      = Real.sqrt (((pointToward a b t₁).x - (pointToward a b t₂).x) ^ 2 +
        ((pointToward a b t₁).y - (pointToward a b t₂).y) ^ 2) from rfl]
  rw [hkey.1, hkey.2]
  have hexp : ((t₁ - t₂) * ((b.x - a.x) / glmDistance b a)) ^ 2 +
      ((t₁ - t₂) * ((b.y - a.y) / glmDistance b a)) ^ 2
      = (t₁ - t₂) ^ 2 *
        (((b.x - a.x) ^ 2 + (b.y - a.y) ^ 2) / glmDistance b a ^ 2) := by
    ring
  rw [hexp, ← hd2, div_self (pow_ne_zero 2 hd), mul_one, Real.sqrt_sq_eq_abs]

/-- Distance from the segment start to the point at arc parameter `t`. -/
theorem glmDistance_pointToward_start (a b : Vertex) (t : ℝ) (ht : 0 ≤ t)
    (hd : glmDistance b a ≠ 0) :
    glmDistance (pointToward a b t) a = t := by
  have h := glmDistance_pointToward a b t 0 hd
  rw [pointToward_zero] at h
  rw [h, sub_zero, abs_of_nonneg ht]

/-! ### C1 — resampling a LineTo -/

/-- C1: for a LineTo resampled with interval `I` on a non-empty polyline,
with `d` the Euclidean distance from the current last vertex to the target
`p`, `s = sum_distance mod I` (computed as `sum − ⌊sum/I⌋·I`) and
`n = ⌊(d − s)/I⌋`: the operation appends, for `i = 1..n`, exactly the
point at distance `s + i·I` along the segment from the previous vertex
toward `p` (third conjunct: that point's Euclidean distance from the
previous vertex is `s + i·I`), and increases `sum_distance` by exactly
`s + n·I`. -/
theorem resample_line_to_spec (pl : Polyline) (p : Vertex) (I sum : ℝ)
    (hI : 0 < I) (hne : pl.vertices ≠ []) :
    (resample_line_to pl p I sum).2
      = sum + (startDistance I sum +
          (nIntervals I (glmDistance p (pl.vertices.getLastD vzero))
            (startDistance I sum)) * I) ∧
    (resample_line_to pl p I sum).1.vertices
      = pl.vertices ++
        (List.range ((nIntervals I (glmDistance p (pl.vertices.getLastD vzero))
            (startDistance I sum)).toNat)).map
          (fun (i : ℕ) => pointToward (pl.vertices.getLastD vzero) p
            (((i : ℝ) + 1) * I + startDistance I sum)) ∧
    (glmDistance p (pl.vertices.getLastD vzero) ≠ 0 →
      ∀ i ∈ List.range ((nIntervals I (glmDistance p (pl.vertices.getLastD vzero))
          (startDistance I sum)).toNat),
        glmDistance
          (pointToward (pl.vertices.getLastD vzero) p
            (((i : ℝ) + 1) * I + startDistance I sum))
          (pl.vertices.getLastD vzero)
          = startDistance I sum + ((i : ℝ) + 1) * I) := by
  rw [resample_line_to_eq pl p I sum hne]
  refine ⟨rfl, rfl, ?_⟩
  intro hd i _
  have hs := startDistance_nonneg I sum hI
  have ht : 0 ≤ ((i : ℝ) + 1) * I + startDistance I sum :=
    add_nonneg (mul_nonneg (by positivity) hI.le) hs
  rw [glmDistance_pointToward_start _ _ _ ht hd]
  ring

/-- Witness for C1: the claim's own example — a single straight 100-unit
segment (MoveTo (0,0) then LineTo (100,0)) resampled with interval 10 from
`sum_distance = 0` emits exactly 10 additional vertices at arc positions
10, 20, …, 100, and advances `sum_distance` to 100. -/
theorem resample_line_to_spec_witness :
    (0 : ℝ) < 10 ∧ (Polyline.mk [⟨0, 0⟩] [] 0).vertices ≠ [] ∧
    (resample_line_to (Polyline.mk [⟨0, 0⟩] [] 0) ⟨100, 0⟩ 10 0).2 = 100 ∧
    (resample_line_to (Polyline.mk [⟨0, 0⟩] [] 0) ⟨100, 0⟩ 10 0).1.vertices
      = [⟨0, 0⟩, ⟨10, 0⟩, ⟨20, 0⟩, ⟨30, 0⟩, ⟨40, 0⟩, ⟨50, 0⟩,
          ⟨60, 0⟩, ⟨70, 0⟩, ⟨80, 0⟩, ⟨90, 0⟩, ⟨100, 0⟩] := by
  have hI : (0 : ℝ) < 10 := by norm_num
  have hne : (Polyline.mk [(⟨0, 0⟩ : Vertex)] [] 0).vertices ≠ [] := by simp
  have h := resample_line_to_spec (Polyline.mk [⟨0, 0⟩] [] 0) ⟨100, 0⟩ 10 0 hI hne
  have hlast : (Polyline.mk [(⟨0, 0⟩ : Vertex)] [] 0).vertices.getLastD vzero
      = ⟨0, 0⟩ := rfl
  have hd : glmDistance (⟨100, 0⟩ : Vertex) ⟨0, 0⟩ = 100 := by
    unfold glmDistance
    rw [show ((100 : ℝ) - 0) ^ 2 + ((0 : ℝ) - 0) ^ 2 = 100 ^ 2 by norm_num]
    exact Real.sqrt_sq (by norm_num)
  have hs : startDistance 10 0 = 0 := by
    unfold startDistance
    norm_num
  have hn : nIntervals 10 100 0 = 10 := by
    unfold nIntervals
    apply floor_eval <;> norm_num
  rw [hlast, hd, hs, hn] at h
  refine ⟨hI, hne, ?_, ?_⟩
  · rw [h.1]
    norm_num
  · rw [h.2.1]
    have hpt : ∀ t : ℝ, pointToward ⟨0, 0⟩ (⟨100, 0⟩ : Vertex) t = ⟨t, 0⟩ := by
      intro t
      unfold pointToward
      rw [hd]
      ext <;> simp
    rw [show ((10 : ℤ)).toNat = 10 from rfl,
      show List.range 10 = [0, 1, 2, 3, 4, 5, 6, 7, 8, 9] from rfl]
    simp only [List.map_cons, List.map_nil, hpt]
    norm_num

/-! ### C10 — a LineTo shorter than the carried remainder -/

/-- C10: when the segment length `d` is strictly below
`s = sum_distance mod I` (e.g. a zero-length segment with a nonzero
remainder), the boundary count is the negative value `n = −1`, no vertex
is emitted, and `sum_distance` strictly decreases, by exactly `I − s` —
so `sum_distance` is not monotone across resampled commands. -/
theorem resample_line_to_short_segment (pl : Polyline) (p : Vertex)
    (I sum : ℝ) (hI : 0 < I) (hne : pl.vertices ≠ [])
    (hshort : glmDistance p (pl.vertices.getLastD vzero)
      < startDistance I sum) :
    nIntervals I (glmDistance p (pl.vertices.getLastD vzero))
        (startDistance I sum) = -1 ∧
    (resample_line_to pl p I sum).1.vertices = pl.vertices ∧
    (resample_line_to pl p I sum).2 = sum - (I - startDistance I sum) ∧
    (resample_line_to pl p I sum).2 < sum := by
  have hs0 := startDistance_nonneg I sum hI
  have hsI := startDistance_lt I sum hI
  have hd0 := glmDistance_nonneg p (pl.vertices.getLastD vzero)
  have hn : nIntervals I (glmDistance p (pl.vertices.getLastD vzero))
      (startDistance I sum) = -1 := by
    unfold nIntervals
    apply floor_eval
    · push_cast
      rw [le_div_iff₀ hI]
      linarith
    · push_cast
      rw [div_lt_iff₀ hI]
      linarith
  rw [resample_line_to_eq pl p I sum hne, hn]
  refine ⟨rfl, by simp, by push_cast; ring, ?_⟩
  have : sum + (startDistance I sum + ((-1 : ℤ) : ℝ) * I) < sum := by
    push_cast
    linarith
  simpa using this

/-! ### C2 — spacing of resampled vertices -/

/-- C2 (amended): within a single resampled LineTo, consecutive emitted
vertices are spaced exactly `interval` apart, but the spacing from the
previous last vertex to the first emitted vertex is
`interval + (sum_distance mod interval)` — so the ≈-interval spacing
across a command boundary holds only when the carried remainder
`sum_distance mod interval` is zero. -/
theorem resample_line_spacing (pl : Polyline) (p : Vertex) (I sum : ℝ)
    (hI : 0 < I) (hne : pl.vertices ≠ [])
    (hd : glmDistance p (pl.vertices.getLastD vzero) ≠ 0) :
    ((resample_line_to pl p I sum).1.vertices
      = pl.vertices ++
        (List.range ((nIntervals I (glmDistance p (pl.vertices.getLastD vzero))
            (startDistance I sum)).toNat)).map
          (fun (i : ℕ) => pointToward (pl.vertices.getLastD vzero) p
            (((i : ℝ) + 1) * I + startDistance I sum))) ∧
    (∀ i : ℕ,
      glmDistance
        (pointToward (pl.vertices.getLastD vzero) p
          (((i : ℝ) + 1) * I + startDistance I sum))
        (pointToward (pl.vertices.getLastD vzero) p
          ((((i + 1 : ℕ) : ℝ) + 1) * I + startDistance I sum)) = I) ∧
    glmDistance
        (pointToward (pl.vertices.getLastD vzero) p
          (((0 : ℝ) + 1) * I + startDistance I sum))
        (pl.vertices.getLastD vzero)
      = I + startDistance I sum := by
  have hs := startDistance_nonneg I sum hI
  refine ⟨?_, ?_, ?_⟩
  · rw [resample_line_to_eq pl p I sum hne]
    rfl
  · intro i
    rw [glmDistance_pointToward _ _ _ _ hd]
    push_cast
    rw [show ((i : ℝ) + 1) * I + startDistance I sum -
        (((i : ℝ) + 1 + 1) * I + startDistance I sum) = -I by ring]
    rw [abs_neg, abs_of_pos hI]
  · have ht : 0 ≤ ((0 : ℝ) + 1) * I + startDistance I sum := by linarith
    rw [glmDistance_pointToward_start _ _ _ ht hd]
    ring

/-- Witness for C2 (amended): interval 5, carried `sum_distance = 3` on a
16-unit segment — the two emitted vertices are 5 apart, while the vertex
bridging the command boundary sits `5 + 3` from the previous vertex. -/
theorem resample_line_spacing_witness :
    (0 : ℝ) < 5 ∧ (Polyline.mk [⟨0, 0⟩] [] 0).vertices ≠ [] ∧
    glmDistance ⟨16, 0⟩ ((Polyline.mk [(⟨0, 0⟩ : Vertex)] [] 0).vertices.getLastD vzero) ≠ 0 ∧
    (∀ i : ℕ,
      glmDistance
        (pointToward ((Polyline.mk [(⟨0, 0⟩ : Vertex)] [] 0).vertices.getLastD vzero) ⟨16, 0⟩
          (((i : ℝ) + 1) * 5 + startDistance 5 3))
        (pointToward ((Polyline.mk [(⟨0, 0⟩ : Vertex)] [] 0).vertices.getLastD vzero) ⟨16, 0⟩
          ((((i + 1 : ℕ) : ℝ) + 1) * 5 + startDistance 5 3)) = 5) ∧
    glmDistance
        (pointToward ((Polyline.mk [(⟨0, 0⟩ : Vertex)] [] 0).vertices.getLastD vzero) ⟨16, 0⟩
          (((0 : ℝ) + 1) * 5 + startDistance 5 3))
        ((Polyline.mk [(⟨0, 0⟩ : Vertex)] [] 0).vertices.getLastD vzero)
      = 5 + startDistance 5 3 := by
  have hI : (0 : ℝ) < 5 := by norm_num
  have hne : (Polyline.mk [(⟨0, 0⟩ : Vertex)] [] 0).vertices ≠ [] := by simp
  have hd : glmDistance ⟨16, 0⟩
      ((Polyline.mk [(⟨0, 0⟩ : Vertex)] [] 0).vertices.getLastD vzero) ≠ 0 := by
    rw [show (Polyline.mk [(⟨0, 0⟩ : Vertex)] [] 0).vertices.getLastD vzero
        = ⟨0, 0⟩ from rfl]
    rw [show glmDistance (⟨16, 0⟩ : Vertex) ⟨0, 0⟩
        = Real.sqrt (((16 : ℝ) - 0) ^ 2 + ((0 : ℝ) - 0) ^ 2) from rfl]
    rw [sqrt_eval (b := 16) (by norm_num) (by norm_num)]
    norm_num
  have h := resample_line_spacing (Polyline.mk [⟨0, 0⟩] [] 0) ⟨16, 0⟩ 5 3 hI hne hd
  exact ⟨hI, hne, hd, h.2.1, h.2.2⟩

/-- Evaluation helper: `glmDistance` on concrete points. -/
theorem glmDistance_eval (x₁ y₁ x₂ y₂ r : ℝ) (hr : 0 ≤ r)
    (h : (x₁ - x₂) ^ 2 + (y₁ - y₂) ^ 2 = r ^ 2) :
    glmDistance ⟨x₁, y₁⟩ ⟨x₂, y₂⟩ = r := by
  unfold glmDistance
  exact sqrt_eval hr h.symm

/-- Evaluation helper: `startDistance` on concrete values. -/
theorem startDistance_eval (I sum : ℝ) (z : ℤ) (s : ℝ)
    (h1 : (z : ℝ) ≤ sum / I) (h2 : sum / I < z + 1)
    (h3 : sum - (z : ℝ) * I = s) :
    startDistance I sum = s := by
  unfold startDistance
  rw [floor_eval h1 h2, h3]

/-- Evaluation helper: `nIntervals` on concrete values. -/
theorem nIntervals_eval (I d s : ℝ) (z : ℤ)
    (h1 : (z : ℝ) ≤ (d - s) / I) (h2 : (d - s) / I < z + 1) :
    nIntervals I d s = z := by
  unfold nIntervals
  exact floor_eval h1 h2

/-- Evaluation helper: one `resample_line_to` step from precomputed
quantities. -/
theorem resample_line_to_eval (v : List Vertex) (dists : List ℝ) (td : ℝ)
    (p last : Vertex) (I sum d s : ℝ) (n : ℤ) (pts vout : List Vertex)
    (out : ℝ)
    (hv : v ≠ []) (hlast : v.getLastD vzero = last)
    (hd : glmDistance p last = d) (hs : startDistance I sum = s)
    (hn : nIntervals I d s = n)
    (hpts : (List.range n.toNat).map
      (fun (i : ℕ) => last + (((i : ℝ) + 1) * I + s) • ((p - last) / d)) = pts)
    (hvout : v ++ pts = vout)
    (hout : sum + (s + (n : ℝ) * I) = out) :
    resample_line_to ⟨v, dists, td⟩ p I sum = (⟨vout, dists, td⟩, out) := by
  rw [resample_line_to_eq ⟨v, dists, td⟩ p I sum hv]
  simp only [show (Polyline.mk v dists td).vertices = v from rfl]
  simp only [hlast, hd, hs, hn, hpts, hvout, hout]

/-- Counterexample to C2: resampling the straight-segment path
`MoveTo (0,0); LineTo (3,4); LineTo (0,8); ClosePath; LineTo (16,0);
LineTo (24,0)` with interval 5 yields the polyline
`(0,0),(3,4),(0,8),(0,3),(0,0),(8,0),(13,0),(19,0),(24,0)`.  The
consecutive vertices `(13,0)` and `(19,0)` (positions 6 and 7 — neither
one the ClosePath duplicate at position 4) are 6 apart, not ≈ 5, although
the path has no curve command at all, so no curve-evaluation tolerance is
involved: the ClosePath leaves `sum_distance = 18`, whose remainder 3
shifts every later command-boundary spacing. -/
theorem resample_spacing_counterexample :
    (resamplePolyline 5
      [PathCommand.moveTo ⟨0, 0⟩, PathCommand.lineTo ⟨3, 4⟩,
        PathCommand.lineTo ⟨0, 8⟩, PathCommand.closePath,
        PathCommand.lineTo ⟨16, 0⟩, PathCommand.lineTo ⟨24, 0⟩]).vertices
      = [⟨0, 0⟩, ⟨3, 4⟩, ⟨0, 8⟩, ⟨0, 3⟩, ⟨0, 0⟩,
          ⟨8, 0⟩, ⟨13, 0⟩, ⟨19, 0⟩, ⟨24, 0⟩] ∧
    glmDistance ⟨13, 0⟩ ⟨19, 0⟩ = 6 ∧ (6 : ℝ) ≠ 5 := by
  have hd1 : glmDistance (⟨3, 4⟩ : Vertex) ⟨0, 0⟩ = 5 :=
    glmDistance_eval 3 4 0 0 5 (by norm_num) (by norm_num)
  have hd2 : glmDistance (⟨0, 8⟩ : Vertex) ⟨3, 4⟩ = 5 :=
    glmDistance_eval 0 8 3 4 5 (by norm_num) (by norm_num)
  have hd3 : glmDistance (⟨0, 0⟩ : Vertex) ⟨0, 8⟩ = 8 :=
    glmDistance_eval 0 0 0 8 8 (by norm_num) (by norm_num)
  have hd3b : glmDistance (⟨0, 0⟩ : Vertex) ⟨0, 3⟩ = 3 :=
    glmDistance_eval 0 0 0 3 3 (by norm_num) (by norm_num)
  have hd4 : glmDistance (⟨16, 0⟩ : Vertex) ⟨0, 0⟩ = 16 :=
    glmDistance_eval 16 0 0 0 16 (by norm_num) (by norm_num)
  have hd5 : glmDistance (⟨24, 0⟩ : Vertex) ⟨13, 0⟩ = 11 :=
    glmDistance_eval 24 0 13 0 11 (by norm_num) (by norm_num)
  have hs1 : startDistance 5 0 = 0 :=
    startDistance_eval 5 0 0 0 (by norm_num) (by norm_num) (by norm_num)
  have hs2 : startDistance 5 5 = 0 :=
    startDistance_eval 5 5 1 0 (by norm_num) (by norm_num) (by norm_num)
  have hs3 : startDistance 5 10 = 0 :=
    startDistance_eval 5 10 2 0 (by norm_num) (by norm_num) (by norm_num)
  have hs4 : startDistance 5 18 = 3 :=
    startDistance_eval 5 18 3 3 (by norm_num) (by norm_num) (by norm_num)
  have hs5 : startDistance 5 31 = 1 :=
    startDistance_eval 5 31 6 1 (by norm_num) (by norm_num) (by norm_num)
  have hn1 : nIntervals 5 5 0 = 1 :=
    nIntervals_eval 5 5 0 1 (by norm_num) (by norm_num)
  have hn3 : nIntervals 5 8 0 = 1 :=
    nIntervals_eval 5 8 0 1 (by norm_num) (by norm_num)
  have hn4 : nIntervals 5 16 3 = 2 :=
    nIntervals_eval 5 16 3 2 (by norm_num) (by norm_num)
  have hn5 : nIntervals 5 11 1 = 2 :=
    nIntervals_eval 5 11 1 2 (by norm_num) (by norm_num)
  have hpts1 : (List.range ((1 : ℤ)).toNat).map
      (fun (i : ℕ) => (⟨0, 0⟩ : Vertex) +
        (((i : ℝ) + 1) * 5 + 0) • (((⟨3, 4⟩ : Vertex) - ⟨0, 0⟩) / (5 : ℝ))) = [⟨3, 4⟩] := by
    rw [show ((1 : ℤ)).toNat = 1 from rfl, show List.range 1 = [0] from rfl]
    simp only [List.map_cons, List.map_nil, List.cons.injEq, and_true]
    ext <;> simp <;> norm_num
  have hpts2 : (List.range ((1 : ℤ)).toNat).map
      (fun (i : ℕ) => (⟨3, 4⟩ : Vertex) +
        (((i : ℝ) + 1) * 5 + 0) • (((⟨0, 8⟩ : Vertex) - ⟨3, 4⟩) / (5 : ℝ))) = [⟨0, 8⟩] := by
    rw [show ((1 : ℤ)).toNat = 1 from rfl, show List.range 1 = [0] from rfl]
    simp only [List.map_cons, List.map_nil, List.cons.injEq, and_true]
    ext <;> simp <;> norm_num
  have hpts3 : (List.range ((1 : ℤ)).toNat).map
      (fun (i : ℕ) => (⟨0, 8⟩ : Vertex) +
        (((i : ℝ) + 1) * 5 + 0) • (((⟨0, 0⟩ : Vertex) - ⟨0, 8⟩) / (8 : ℝ))) = [⟨0, 3⟩] := by
    rw [show ((1 : ℤ)).toNat = 1 from rfl, show List.range 1 = [0] from rfl]
    simp only [List.map_cons, List.map_nil, List.cons.injEq, and_true]
    ext <;> simp <;> norm_num
  have hpts4 : (List.range ((2 : ℤ)).toNat).map
      (fun (i : ℕ) => (⟨0, 0⟩ : Vertex) +
        (((i : ℝ) + 1) * 5 + 3) • (((⟨16, 0⟩ : Vertex) - ⟨0, 0⟩) / (16 : ℝ)))
      = [⟨8, 0⟩, ⟨13, 0⟩] := by
    rw [show ((2 : ℤ)).toNat = 2 from rfl,
      show List.range 2 = [0, 1] from rfl]
    simp only [List.map_cons, List.map_nil, List.cons.injEq, and_true]
    refine ⟨?_, ?_⟩ <;> (ext <;> simp <;> norm_num)
  have hpts5 : (List.range ((2 : ℤ)).toNat).map
      (fun (i : ℕ) => (⟨13, 0⟩ : Vertex) +
        (((i : ℝ) + 1) * 5 + 1) • (((⟨24, 0⟩ : Vertex) - ⟨13, 0⟩) / (11 : ℝ)))
      = [⟨19, 0⟩, ⟨24, 0⟩] := by
    rw [show ((2 : ℤ)).toNat = 2 from rfl,
      show List.range 2 = [0, 1] from rfl]
    simp only [List.map_cons, List.map_nil, List.cons.injEq, and_true]
    refine ⟨?_, ?_⟩ <;> (ext <;> simp <;> norm_num)
  have e2 : resampleCommand 100 5 ((⟨[⟨0, 0⟩], [], 0⟩ : Polyline), (0 : ℝ))
      (PathCommand.lineTo ⟨3, 4⟩) = (⟨[⟨0, 0⟩, ⟨3, 4⟩], [], 0⟩, 5) := by
    show resample_line_to ⟨[⟨0, 0⟩], [], 0⟩ ⟨3, 4⟩ 5 0 = _
    exact resample_line_to_eval _ _ _ _ _ _ _ _ _ _ _ _ _
      (by simp) rfl hd1 hs1 hn1 hpts1 rfl (by push_cast; norm_num)
  have e3 : resampleCommand 100 5
      ((⟨[⟨0, 0⟩, ⟨3, 4⟩], [], 0⟩ : Polyline), (5 : ℝ))
      (PathCommand.lineTo ⟨0, 8⟩)
      = (⟨[⟨0, 0⟩, ⟨3, 4⟩, ⟨0, 8⟩], [], 0⟩, 10) := by
    show resample_line_to ⟨[⟨0, 0⟩, ⟨3, 4⟩], [], 0⟩ ⟨0, 8⟩ 5 5 = _
    exact resample_line_to_eval _ _ _ _ _ _ _ _ _ _ _ _ _
      (by simp) rfl hd2 hs2 hn1 hpts2 rfl (by push_cast; norm_num)
  have e4 : resampleCommand 100 5
      ((⟨[⟨0, 0⟩, ⟨3, 4⟩, ⟨0, 8⟩], [], 0⟩ : Polyline), (10 : ℝ))
      PathCommand.closePath
      = (⟨[⟨0, 0⟩, ⟨3, 4⟩, ⟨0, 8⟩, ⟨0, 3⟩, ⟨0, 0⟩], [], 0⟩, 18) := by
    show resample_close_path ⟨[⟨0, 0⟩, ⟨3, 4⟩, ⟨0, 8⟩], [], 0⟩ 5 10 = _
    unfold resample_close_path
    rw [show (Polyline.mk [(⟨0, 0⟩ : Vertex), ⟨3, 4⟩, ⟨0, 8⟩] [] 0).vertices.headD vzero
        = ⟨0, 0⟩ from rfl]
    rw [resample_line_to_eval [⟨0, 0⟩, ⟨3, 4⟩, ⟨0, 8⟩] [] 0 ⟨0, 0⟩ ⟨0, 8⟩ 5 10 8 0 1
      [⟨0, 3⟩] [⟨0, 0⟩, ⟨3, 4⟩, ⟨0, 8⟩, ⟨0, 3⟩] 15
      (by simp) rfl hd3 hs3 hn3 hpts3 rfl (by push_cast; norm_num)]
    simp only
    rw [show (Polyline.mk [(⟨0, 0⟩ : Vertex), ⟨3, 4⟩, ⟨0, 8⟩, ⟨0, 3⟩] [] 0).vertices.headD vzero
        = ⟨0, 0⟩ from rfl,
      show (Polyline.mk [(⟨0, 0⟩ : Vertex), ⟨3, 4⟩, ⟨0, 8⟩, ⟨0, 3⟩] [] 0).vertices.getLastD vzero
        = ⟨0, 3⟩ from rfl, hd3b]
    norm_num
  have e5 : resampleCommand 100 5
      ((⟨[⟨0, 0⟩, ⟨3, 4⟩, ⟨0, 8⟩, ⟨0, 3⟩, ⟨0, 0⟩], [], 0⟩ : Polyline), (18 : ℝ))
      (PathCommand.lineTo ⟨16, 0⟩)
      = (⟨[⟨0, 0⟩, ⟨3, 4⟩, ⟨0, 8⟩, ⟨0, 3⟩, ⟨0, 0⟩, ⟨8, 0⟩, ⟨13, 0⟩], [], 0⟩, 31) := by
    show resample_line_to ⟨[⟨0, 0⟩, ⟨3, 4⟩, ⟨0, 8⟩, ⟨0, 3⟩, ⟨0, 0⟩], [], 0⟩ ⟨16, 0⟩ 5 18 = _
    exact resample_line_to_eval _ _ _ _ _ _ _ _ _ _ _ _ _
      (by simp) rfl hd4 hs4 hn4 hpts4 rfl (by push_cast; norm_num)
  have e6 : resampleCommand 100 5
      ((⟨[⟨0, 0⟩, ⟨3, 4⟩, ⟨0, 8⟩, ⟨0, 3⟩, ⟨0, 0⟩, ⟨8, 0⟩, ⟨13, 0⟩], [], 0⟩ : Polyline), (31 : ℝ))
      (PathCommand.lineTo ⟨24, 0⟩)
      = (⟨[⟨0, 0⟩, ⟨3, 4⟩, ⟨0, 8⟩, ⟨0, 3⟩, ⟨0, 0⟩, ⟨8, 0⟩, ⟨13, 0⟩, ⟨19, 0⟩, ⟨24, 0⟩], [], 0⟩, 42) := by
    show resample_line_to
      ⟨[⟨0, 0⟩, ⟨3, 4⟩, ⟨0, 8⟩, ⟨0, 3⟩, ⟨0, 0⟩, ⟨8, 0⟩, ⟨13, 0⟩], [], 0⟩ ⟨24, 0⟩ 5 31 = _
    exact resample_line_to_eval _ _ _ _ _ _ _ _ _ _ _ _ _
      (by simp) rfl hd5 hs5 hn5 hpts5 rfl (by push_cast; norm_num)
  refine ⟨?_, glmDistance_eval 13 0 19 0 6 (by norm_num) (by norm_num), by norm_num⟩
  unfold resamplePolyline
  simp only [List.foldl_cons, List.foldl_nil]
  rw [show resampleCommand 100 5 ((⟨[], [], 0⟩ : Polyline), (0 : ℝ))
      (PathCommand.moveTo ⟨0, 0⟩) = (⟨[⟨0, 0⟩], [], 0⟩, 0) from rfl]
  rw [e2, e3, e4, e5, e6]

/-! ### C6 — SVG round-trip -/

/-- Counterexample to C6: the claim's input string `"M0,0 L10,0 L10,10 Z"`
has no whitespace between the command letters and their coordinates, but
each instruction matcher requires at least one whitespace character there
(`is_whitespace` fails on an empty run).  Hence no `M`/`L` instruction
matches, no command is ever added, and when the scanner reaches `Z` it
calls `close_path` on a path with no sub-path — `back()` on an empty
vector, i.e. UB (modelled as `none`).  The parse does not produce a path
at all, let alone the claimed polyline. -/
theorem svg_roundtrip_counterexample :
    le_path_add_from_simplified_svg le_path_create
      ['M', '0', ',', '0', ' ', 'L', '1', '0', ',', '0', ' ',
        'L', '1', '0', ',', '1', '0', ' ', 'Z'] = none := rfl

/-- C6 (amended): with the whitespace the grammar actually requires
(`"M 0,0 L 10,0 L 10,10 Z"`), parsing into an empty path and tracing
yields exactly one polyline with the 4 vertices
`(0,0), (10,0), (10,10), (0,0)` and cumulative distances
`0, 10, 20, 20 + 10·√2` (the closing edge has length `10·√2 ≈ 14.14`,
not 10, so the final cumulative distance is not 30). -/
theorem svg_roundtrip_amended :
    le_path_add_from_simplified_svg le_path_create
      ['M', ' ', '0', ',', '0', ' ', 'L', ' ', '1', '0', ',', '0', ' ',
        'L', ' ', '1', '0', ',', '1', '0', ' ', 'Z']
      = some (le_path_o.mk
          [[PathCommand.moveTo ⟨0, 0⟩, PathCommand.lineTo ⟨10, 0⟩,
            PathCommand.lineTo ⟨10, 10⟩, PathCommand.closePath]] [] 0) ∧
    (le_path_trace_path (le_path_o.mk
        [[PathCommand.moveTo ⟨0, 0⟩, PathCommand.lineTo ⟨10, 0⟩,
          PathCommand.lineTo ⟨10, 10⟩, PathCommand.closePath]] [] 0)).polylines
      = [Polyline.mk [⟨0, 0⟩, ⟨10, 0⟩, ⟨10, 10⟩, ⟨0, 0⟩]
          [0, 10, 20, 20 + 10 * Real.sqrt 2] (20 + 10 * Real.sqrt 2)] := by
  constructor
  · have hraw : le_path_add_from_simplified_svg le_path_create
        ['M', ' ', '0', ',', '0', ' ', 'L', ' ', '1', '0', ',', '0', ' ',
          'L', ' ', '1', '0', ',', '1', '0', ' ', 'Z']
        = some (le_path_o.mk
            [[PathCommand.moveTo
                ⟨(1 : ℝ) * (((0 : ℕ) : ℝ) + 0), (1 : ℝ) * (((0 : ℕ) : ℝ) + 0)⟩,
              PathCommand.lineTo
                ⟨(1 : ℝ) * (((10 : ℕ) : ℝ) + 0), (1 : ℝ) * (((0 : ℕ) : ℝ) + 0)⟩,
              PathCommand.lineTo
                ⟨(1 : ℝ) * (((10 : ℕ) : ℝ) + 0), (1 : ℝ) * (((10 : ℕ) : ℝ) + 0)⟩,
              PathCommand.closePath]] [] 0) := rfl
    rw [hraw]
    norm_num
  · have hd1 : glmDistance (⟨10, 0⟩ : Vertex) ⟨0, 0⟩ = 10 :=
      glmDistance_eval 10 0 0 0 10 (by norm_num) (by norm_num)
    have hd2 : glmDistance (⟨10, 10⟩ : Vertex) ⟨10, 0⟩ = 10 :=
      glmDistance_eval 10 10 10 0 10 (by norm_num) (by norm_num)
    have hd3 : glmDistance (⟨0, 0⟩ : Vertex) ⟨10, 10⟩ = 10 * Real.sqrt 2 := by
      refine glmDistance_eval 0 0 10 10 (10 * Real.sqrt 2) (by positivity) ?_
      rw [mul_pow, Real.sq_sqrt (by norm_num : (0 : ℝ) ≤ 2)]
      norm_num
    have t2 : traceCommand 12 ⟨[⟨0, 0⟩], [0], 0⟩ (PathCommand.lineTo ⟨10, 0⟩)
        = ⟨[⟨0, 0⟩, ⟨10, 0⟩], [0, 10], 10⟩ := by
      show trace_line_to _ _ = _
      unfold trace_line_to
      rw [show (Polyline.mk [(⟨0, 0⟩ : Vertex)] [0] 0).vertices.getLastD vzero
          = ⟨0, 0⟩ from rfl, hd1]
      norm_num
    have t3 : traceCommand 12 ⟨[⟨0, 0⟩, ⟨10, 0⟩], [0, 10], 10⟩
        (PathCommand.lineTo ⟨10, 10⟩)
        = ⟨[⟨0, 0⟩, ⟨10, 0⟩, ⟨10, 10⟩], [0, 10, 20], 20⟩ := by
      show trace_line_to _ _ = _
      unfold trace_line_to
      rw [show (Polyline.mk [(⟨0, 0⟩ : Vertex), ⟨10, 0⟩] [0, 10] 10).vertices.getLastD vzero
          = ⟨10, 0⟩ from rfl, hd2]
      norm_num
    have t4 : traceCommand 12 ⟨[⟨0, 0⟩, ⟨10, 0⟩, ⟨10, 10⟩], [0, 10, 20], 20⟩
        PathCommand.closePath
        = ⟨[⟨0, 0⟩, ⟨10, 0⟩, ⟨10, 10⟩, ⟨0, 0⟩],
            [0, 10, 20, 20 + 10 * Real.sqrt 2], 20 + 10 * Real.sqrt 2⟩ := by
      show trace_close_path _ = _
      unfold trace_close_path trace_line_to
      rw [show (Polyline.mk [(⟨0, 0⟩ : Vertex), ⟨10, 0⟩, ⟨10, 10⟩] [0, 10, 20] 20).vertices.headD vzero
          = ⟨0, 0⟩ from rfl,
        show (Polyline.mk [(⟨0, 0⟩ : Vertex), ⟨10, 0⟩, ⟨10, 10⟩] [0, 10, 20] 20).vertices.getLastD vzero
          = ⟨10, 10⟩ from rfl, hd3]
      norm_num
    show (le_path_o.mk _ _ _).subpaths.map tracePolyline = _
    simp only [List.map_cons, List.map_nil]
    unfold tracePolyline
    simp only [List.foldl_cons, List.foldl_nil]
    rw [show traceCommand 12 ⟨[], [], 0⟩ (PathCommand.moveTo ⟨0, 0⟩)
        = ⟨[⟨0, 0⟩], [0], 0⟩ from rfl]
    rw [t2, t3, t4]

/-- Witness for C10: a zero-length LineTo with `I = 10`, `sum = 5`:
the remainder is 5, nothing is emitted, and `sum_distance` drops from 5
to 0. -/
theorem resample_line_to_short_segment_witness :
    (0 : ℝ) < 10 ∧ (Polyline.mk [vzero] [] 0).vertices ≠ [] ∧
    glmDistance vzero ((Polyline.mk [vzero] [] 0).vertices.getLastD vzero)
      < startDistance 10 5 ∧
    (resample_line_to (Polyline.mk [vzero] [] 0) vzero 10 5).1.vertices
      = [vzero] ∧
    (resample_line_to (Polyline.mk [vzero] [] 0) vzero 10 5).2 = 0 ∧
    (resample_line_to (Polyline.mk [vzero] [] 0) vzero 10 5).2 < 5 := by
  have hI : (0 : ℝ) < 10 := by norm_num
  have hne : (Polyline.mk [vzero] [] 0).vertices ≠ [] := by simp
  have hs : startDistance 10 5 = 5 := by
    unfold startDistance
    rw [show ⌊(5 : ℝ) / 10⌋ = 0 from floor_eval (by norm_num) (by norm_num)]
    norm_num
  have hshort : glmDistance vzero
      ((Polyline.mk [vzero] [] 0).vertices.getLastD vzero)
      < startDistance 10 5 := by
    rw [show (Polyline.mk [vzero] [] 0).vertices.getLastD vzero = vzero from rfl,
      glmDistance_self, hs]
    norm_num
  have h := resample_line_to_short_segment (Polyline.mk [vzero] [] 0) vzero
    10 5 hI hne hshort
  refine ⟨hI, hne, hshort, h.2.1, ?_, ?_⟩
  · rw [h.2.2.1, hs]
    norm_num
  · rw [h.2.2.1, hs]
    norm_num

end



